import Mathlib

/-! Account handlers of `contoroller/account.go`.

A shallow embedding of the six gin handlers of package `controller`
(`ShowAccount`, `ListAccounts`, `AddAccount`, `UpdateAccount`,
`DeleteAccount`, `UploadAccountImage`).

* A Go `error` is represented by its message (`String`); a Go result pair
  `(v, err)` is an `Except String _`, a lone `error` result an `Option String`
  (`none` is `nil`).
* `strconv.Atoi` and the functions of the imported package `model` are
  collaborators living outside this package.  They are parameters of the
  embedding (`Env`), so every theorem holds for every behaviour they can have.
  The `model` functions act on a Datastore state of an arbitrary type `σ`.
* A `gin.Context` is represented by the answers of the request-side methods
  the handlers call (`Param`, `Request.URL.Query().Get`, `ShouldBindJSON`,
  `FormFile`).
* Running a handler transforms an `Exchange`: the Datastore state, the log of
  Datastore calls the handler made, and the responses it wrote through
  `ctx.JSON`.
-/

set_option linter.dupNamespace false

/-! ## Data model -/

namespace model

/-- The struct `model.Account`: the fields the handlers read and write. -/
structure Account where
  ID : Int
  Name : String
deriving DecidableEq, Repr

/-- The struct `model.AddAccount`, body of a create request. -/
structure AddAccount where
  Name : String
deriving DecidableEq, Repr

/-- The struct `model.UpdateAccount`, body of an update request. -/
structure UpdateAccount where
  Name : String
deriving DecidableEq, Repr

end model

namespace Controller

/-- The part of `multipart.FileHeader` that `UploadAccountImage` reads. -/
structure FileHeader where
  Filename : String
deriving DecidableEq, Repr

/-- The struct `controller.Message` (declared outside `account.go`): the handler
builds it with its single field `Message`. -/
structure Message where
  Message : String
deriving DecidableEq, Repr

/-- Modelled from the spec: the type `controller.HTTPError`, declared outside
`account.go`.  The spec gives the error body shape as an object with one
string field `message`. -/
structure HTTPError where
  Message : String
deriving DecidableEq, Repr

/-- The values the handlers hand to `ctx.JSON` as response object. -/
inductive Payload where
  | account (a : model.Account)
  | accounts (l : List model.Account)
  | message (m : Message)
  | H (entries : List (String × String))
  | httpError (e : HTTPError)
deriving DecidableEq, Repr

/-- One call of `ctx.JSON(code, obj)`. -/
structure Response where
  status : Nat
  body : Payload
deriving DecidableEq, Repr

/-- Constant `http.StatusOK`. -/
def StatusOK : Nat := 200
/-- Constant `http.StatusNoContent`. -/
def StatusNoContent : Nat := 204
/-- Constant `http.StatusBadRequest`. -/
def StatusBadRequest : Nat := 400
/-- Constant `http.StatusNotFound`. -/
def StatusNotFound : Nat := 404
/-- Constant `http.StatusInternalServerError`, declared by the handlers' doc
comments as a possible failure. -/
def StatusInternalServerError : Nat := 500

/-! ## Collaborators -/

/-- The request side of a `gin.Context`: what each method the handlers call
answers for this request.  `ShouldBindJSON` is listed once per target type. -/
structure Context where
  Param : String → String
  Query : String → String
  ShouldBindJSONAddAccount : Except String model.AddAccount
  ShouldBindJSONUpdateAccount : Except String model.UpdateAccount
  FormFile : String → Except String FileHeader

/-- The functions `account.go` imports: `strconv.Atoi` and package `model`
over a Datastore state `σ`.  Each Datastore function returns its Go result
together with the Datastore state it leaves behind.  `Insert` and `Update`
are called on the local `account` value and `Validation` on the bound
request value. -/
structure Env (σ : Type) where
  Atoi : String → Except String Int
  Validation : model.AddAccount → Option String
  AccountOne : Int → σ → Except String model.Account × σ
  AccountsAll : String → σ → Except String (List model.Account) × σ
  Insert : model.Account → σ → Except String Int × σ
  Update : model.Account → σ → Option String × σ
  Delete : Int → σ → Option String × σ

/-- A call from a handler into the Datastore, with its argument. -/
inductive DSCall where
  | AccountOne (aid : Int)
  | AccountsAll (q : String)
  | Insert (a : model.Account)
  | Update (a : model.Account)
  | Delete (aid : Int)
deriving DecidableEq, Repr

/-- The state a handler runs in. -/
structure Exchange (σ : Type) where
  db : σ
  calls : List DSCall
  written : List Response

/-- The start of a request: no Datastore call made, nothing written. -/
def Exchange.fresh {σ : Type} (db : σ) : Exchange σ := ⟨db, [], []⟩

/-- The method `ctx.JSON(code, obj)`: writes one response. -/
def ctxJSON {σ : Type} (code : Nat) (obj : Payload) (x : Exchange σ) : Exchange σ :=
  ⟨x.db, x.calls, x.written ++ [⟨code, obj⟩]⟩

/-- Modelled from the spec: the helper `NewError(ctx, status, err)` of package
`controller`, defined outside `account.go`.  The spec says every error is
converted to the uniform JSON error envelope with the message of the error and
surfaces with the status of its kind; the helper writes that one response. -/
def NewError {σ : Type} (status : Nat) (err : String) (x : Exchange σ) : Exchange σ :=
  ctxJSON status (Payload.httpError ⟨err⟩) x

/-- Call `model.AccountOne(aid)`. -/
def callAccountOne {σ : Type} (env : Env σ) (aid : Int) (x : Exchange σ) :
    Except String model.Account × Exchange σ :=
  ((env.AccountOne aid x.db).1,
    ⟨(env.AccountOne aid x.db).2, x.calls ++ [DSCall.AccountOne aid], x.written⟩)

/-- Call `model.AccountsAll(q)`. -/
def callAccountsAll {σ : Type} (env : Env σ) (q : String) (x : Exchange σ) :
    Except String (List model.Account) × Exchange σ :=
  ((env.AccountsAll q x.db).1,
    ⟨(env.AccountsAll q x.db).2, x.calls ++ [DSCall.AccountsAll q], x.written⟩)

/-- Call `account.Insert()`. -/
def callInsert {σ : Type} (env : Env σ) (a : model.Account) (x : Exchange σ) :
    Except String Int × Exchange σ :=
  ((env.Insert a x.db).1,
    ⟨(env.Insert a x.db).2, x.calls ++ [DSCall.Insert a], x.written⟩)

/-- Call `account.Update()`. -/
def callUpdate {σ : Type} (env : Env σ) (a : model.Account) (x : Exchange σ) :
    Option String × Exchange σ :=
  ((env.Update a x.db).1,
    ⟨(env.Update a x.db).2, x.calls ++ [DSCall.Update a], x.written⟩)

/-- Call `model.Delete(aid)`. -/
def callDelete {σ : Type} (env : Env σ) (aid : Int) (x : Exchange σ) :
    Option String × Exchange σ :=
  ((env.Delete aid x.db).1,
    ⟨(env.Delete aid x.db).2, x.calls ++ [DSCall.Delete aid], x.written⟩)

/-! ## The handlers -/

/-- Handler `(c *Controller) ShowAccount`. -/
def ShowAccount {σ : Type} (env : Env σ) (ctx : Context) (x : Exchange σ) : Exchange σ :=
  let id := ctx.Param "id"
  match env.Atoi id with
  | .error err => NewError StatusBadRequest err x
  | .ok aid =>
    match callAccountOne env aid x with
    | (.error err, x1) => NewError StatusNotFound err x1
    | (.ok account, x1) => ctxJSON StatusOK (Payload.account account) x1

/-- Handler `(c *Controller) ListAccounts`. -/
def ListAccounts {σ : Type} (env : Env σ) (ctx : Context) (x : Exchange σ) : Exchange σ :=
  let q := ctx.Query "q"
  match callAccountsAll env q x with
  | (.error err, x1) => NewError StatusNotFound err x1
  | (.ok accounts, x1) => ctxJSON StatusOK (Payload.accounts accounts) x1

/-- Handler `(c *Controller) AddAccount`.  The local `account` is built with
only `Name` set, so its `ID` is the zero value until `lastID` is stored. -/
def AddAccount {σ : Type} (env : Env σ) (ctx : Context) (x : Exchange σ) : Exchange σ :=
  match ctx.ShouldBindJSONAddAccount with
  | .error err => NewError StatusBadRequest err x
  | .ok addAccount =>
    match env.Validation addAccount with
    | some err => NewError StatusBadRequest err x
    | none =>
      let account : model.Account := ⟨0, addAccount.Name⟩
      match callInsert env account x with
      | (.error err, x1) => NewError StatusBadRequest err x1
      | (.ok lastID, x1) =>
        let account : model.Account := ⟨lastID, account.Name⟩
        ctxJSON StatusOK (Payload.account account) x1

/-- Handler `(c *Controller) UpdateAccount`. -/
def UpdateAccount {σ : Type} (env : Env σ) (ctx : Context) (x : Exchange σ) : Exchange σ :=
  let id := ctx.Param "id"
  match env.Atoi id with
  | .error err => NewError StatusBadRequest err x
  | .ok aid =>
    match ctx.ShouldBindJSONUpdateAccount with
    | .error err => NewError StatusBadRequest err x
    | .ok updateAccount =>
      let account : model.Account := ⟨aid, updateAccount.Name⟩
      match callUpdate env account x with
      | (some err, x1) => NewError StatusNotFound err x1
      | (none, x1) => ctxJSON StatusOK (Payload.account account) x1

/-- Handler `(c *Controller) DeleteAccount`; `gin.H{}` is the empty map. -/
def DeleteAccount {σ : Type} (env : Env σ) (ctx : Context) (x : Exchange σ) : Exchange σ :=
  let id := ctx.Param "id"
  match env.Atoi id with
  | .error err => NewError StatusBadRequest err x
  | .ok aid =>
    match callDelete env aid x with
    | (some err, x1) => NewError StatusNotFound err x1
    | (none, x1) => ctxJSON StatusNoContent (Payload.H []) x1

/-- Handler `(c *Controller) UploadAccountImage`.  The format string has the
single verb `%s`, so `fmt.Sprintf` appends the file name to the fixed text. -/
def UploadAccountImage {σ : Type} (env : Env σ) (ctx : Context) (x : Exchange σ) :
    Exchange σ :=
  let id := ctx.Param "id"
  match env.Atoi id with
  | .error err => NewError StatusBadRequest err x
  | .ok _ =>
    match ctx.FormFile "file" with
    | .error err => NewError StatusBadRequest err x
    | .ok file =>
      ctxJSON StatusOK
        (Payload.message ⟨"upload compleate finename=" ++ file.Filename⟩) x

/-! ## Observations on a finished exchange -/

/-- The statuses of the responses written, in order. -/
def statuses {σ : Type} (x : Exchange σ) : List Nat := x.written.map Response.status

/-- The handler answered with exactly one response, of status `code`. -/
def respondsWith {σ : Type} (x : Exchange σ) (code : Nat) : Prop :=
  statuses x = [code]

instance {σ : Type} (x : Exchange σ) (code : Nat) : Decidable (respondsWith x code) :=
  inferInstanceAs (Decidable (statuses x = [code]))

/-- Text `f` occurs inside text `s`. -/
def containsText (s f : String) : Prop := ∃ pre post : String, s = pre ++ f ++ post

/-! ## A concrete environment

An implementation of `strconv.Atoi` on Go's 64-bit `int` and an in-memory
Datastore over a list of accounts, used to run the handlers on concrete
requests. -/

/-- Value of a run of ASCII decimal digits, `none` at the first other
character. -/
def digitsValue : List Char → Nat → Option Nat
  | [], n => some n
  | c :: cs, n =>
    if c.isDigit then digitsValue cs (n * 10 + (c.toNat - 48)) else none

/-- Function `strconv.Atoi` for a 64-bit `int`: an optional sign followed by
one or more decimal digits, the value within the range of `int`.  The error is
reported by the message of its cause. -/
def strconvAtoi (s : String) : Except String Int :=
  match s.data with
  | [] => .error "invalid syntax"
  | c :: cs =>
    let neg := c == '-'
    let ds := if c == '-' || c == '+' then cs else c :: cs
    if ds.isEmpty then .error "invalid syntax"
    else
      match digitsValue ds 0 with
      | none => .error "invalid syntax"
      | some n =>
        if neg then
          if n ≤ 2 ^ 63 then .ok (-(n : Int)) else .error "value out of range"
        else
          if n < 2 ^ 63 then .ok (n : Int) else .error "value out of range"

/-- In-memory `AccountOne`: the account with this ID, or an error. -/
def memAccountOne (aid : Int) (db : List model.Account) :
    Except String model.Account × List model.Account :=
  match db.find? (fun a => a.ID == aid) with
  | some a => (.ok a, db)
  | none => (.error "account is not found", db)

/-- In-memory `AccountsAll`: all accounts, or those named `q`; never an error. -/
def memAccountsAll (q : String) (db : List model.Account) :
    Except String (List model.Account) × List model.Account :=
  (.ok (if q = "" then db else db.filter (fun a => a.Name == q)), db)

/-- In-memory `Insert`: stores the account under the next free positive ID. -/
def memInsert (a : model.Account) (db : List model.Account) :
    Except String Int × List model.Account :=
  let lastID := db.foldl (fun m b => max m b.ID) 0 + 1
  (.ok lastID, db ++ [⟨lastID, a.Name⟩])

/-- In-memory `Update`: renames the account with this ID, or an error. -/
def memUpdate (a : model.Account) (db : List model.Account) :
    Option String × List model.Account :=
  if db.any (fun b => b.ID == a.ID) then
    (none, db.map (fun b => if b.ID == a.ID then ⟨b.ID, a.Name⟩ else b))
  else (some "account is not found", db)

/-- In-memory `Delete`: removes the account with this ID, or an error. -/
def memDelete (aid : Int) (db : List model.Account) :
    Option String × List model.Account :=
  if db.any (fun b => b.ID == aid) then (none, db.filter (fun b => b.ID != aid))
  else (some "account is not found", db)

/-- A `Validation` that rejects exactly the empty name. -/
def memValidation (a : model.AddAccount) : Option String :=
  if a.Name = "" then some "name is empty" else none

/-- The concrete environment. -/
def memEnv : Env (List model.Account) :=
  ⟨strconvAtoi, memValidation, memAccountOne, memAccountsAll, memInsert, memUpdate,
    memDelete⟩

/-- A request with path parameter `id`, query parameter `q`, the outcome of
binding its body to either request struct, and the file attached under form
field `file`, if any.  Absent parameters read as the empty string. -/
def request (id q : String) (add : Except String model.AddAccount)
    (upd : Except String model.UpdateAccount) (file : Option FileHeader) : Context :=
  ⟨fun k => if k = "id" then id else "",
   fun k => if k = "q" then q else "",
   add, upd,
   fun k =>
     match (if k = "file" then file else none) with
     | some f => .ok f
     | none => .error "http: no such file"⟩

/-- The handler made no Datastore call and the Datastore state is still `db`. -/
def noDatastoreCall {σ : Type} (x : Exchange σ) (db : σ) : Prop :=
  x.calls = [] ∧ x.db = db

/-- The exchange holds exactly one response, its status is 200, 204, 400 or
404 (so not 500), and at most one Datastore call was made. -/
def wellAnswered {σ : Type} (x : Exchange σ) : Prop :=
  ∃ r : Response, x.written = [r] ∧
    (r.status = 200 ∨ r.status = 204 ∨ r.status = 400 ∨ r.status = 404) ∧
    r.status ≠ StatusInternalServerError ∧ x.calls.length ≤ 1

/-- Binding, validation and insertion of an add request all succeed: the body
binds to `a`, `a` passes `Validation`, and `Insert` of the account named
`a.Name` returns the identifier `lastID`. -/
def addSucceeds {σ : Type} (env : Env σ) (ctx : Context) (db : σ)
    (a : model.AddAccount) (lastID : Int) : Prop :=
  ctx.ShouldBindJSONAddAccount = .ok a ∧ env.Validation a = none ∧
    (env.Insert ⟨0, a.Name⟩ db).1 = .ok lastID

/-! ## Theorems -/

/-- C1: when `strconv.Atoi` reports an error for the path value `id`, each of
`ShowAccount`, `UpdateAccount`, `DeleteAccount` and `UploadAccountImage`
answers with status 400, for every body, attached file and Datastore, and
makes no Datastore call. -/
theorem nonInteger_id_badRequest {σ : Type} (env : Env σ) (ctx : Context) (db : σ)
    (err : String) (h : env.Atoi (ctx.Param "id") = .error err) :
    (respondsWith (ShowAccount env ctx (Exchange.fresh db)) 400 ∧
      noDatastoreCall (ShowAccount env ctx (Exchange.fresh db)) db) ∧
    (respondsWith (UpdateAccount env ctx (Exchange.fresh db)) 400 ∧
      noDatastoreCall (UpdateAccount env ctx (Exchange.fresh db)) db) ∧
    (respondsWith (DeleteAccount env ctx (Exchange.fresh db)) 400 ∧
      noDatastoreCall (DeleteAccount env ctx (Exchange.fresh db)) db) ∧
    (respondsWith (UploadAccountImage env ctx (Exchange.fresh db)) 400 ∧
      noDatastoreCall (UploadAccountImage env ctx (Exchange.fresh db)) db) := by
  simp [ShowAccount, UpdateAccount, DeleteAccount, UploadAccountImage, h, NewError,
    ctxJSON, respondsWith, statuses, noDatastoreCall, Exchange.fresh, StatusBadRequest]

/-- Witness of C1: the path value `abc`, with a bindable body and an attached
file, on a Datastore holding one account. -/
theorem nonInteger_id_badRequest_witness :
    memEnv.Atoi ((request "abc" "" (.error "EOF") (.ok ⟨"Bob"⟩)
        (some ⟨"photo.png"⟩)).Param "id") = .error "invalid syntax" ∧
    ((respondsWith (ShowAccount memEnv (request "abc" "" (.error "EOF") (.ok ⟨"Bob"⟩)
          (some ⟨"photo.png"⟩)) (Exchange.fresh [⟨1, "Alice"⟩])) 400 ∧
        noDatastoreCall (ShowAccount memEnv (request "abc" "" (.error "EOF") (.ok ⟨"Bob"⟩)
          (some ⟨"photo.png"⟩)) (Exchange.fresh [⟨1, "Alice"⟩])) [⟨1, "Alice"⟩]) ∧
      (respondsWith (UpdateAccount memEnv (request "abc" "" (.error "EOF") (.ok ⟨"Bob"⟩)
          (some ⟨"photo.png"⟩)) (Exchange.fresh [⟨1, "Alice"⟩])) 400 ∧
        noDatastoreCall (UpdateAccount memEnv (request "abc" "" (.error "EOF")
          (.ok ⟨"Bob"⟩) (some ⟨"photo.png"⟩)) (Exchange.fresh [⟨1, "Alice"⟩]))
          [⟨1, "Alice"⟩]) ∧
      (respondsWith (DeleteAccount memEnv (request "abc" "" (.error "EOF") (.ok ⟨"Bob"⟩)
          (some ⟨"photo.png"⟩)) (Exchange.fresh [⟨1, "Alice"⟩])) 400 ∧
        noDatastoreCall (DeleteAccount memEnv (request "abc" "" (.error "EOF")
          (.ok ⟨"Bob"⟩) (some ⟨"photo.png"⟩)) (Exchange.fresh [⟨1, "Alice"⟩]))
          [⟨1, "Alice"⟩]) ∧
      (respondsWith (UploadAccountImage memEnv (request "abc" "" (.error "EOF")
          (.ok ⟨"Bob"⟩) (some ⟨"photo.png"⟩)) (Exchange.fresh [⟨1, "Alice"⟩])) 400 ∧
        noDatastoreCall (UploadAccountImage memEnv (request "abc" "" (.error "EOF")
          (.ok ⟨"Bob"⟩) (some ⟨"photo.png"⟩)) (Exchange.fresh [⟨1, "Alice"⟩]))
          [⟨1, "Alice"⟩])) :=
  ⟨rfl, nonInteger_id_badRequest memEnv
    (request "abc" "" (.error "EOF") (.ok ⟨"Bob"⟩) (some ⟨"photo.png"⟩))
    [⟨1, "Alice"⟩] "invalid syntax" rfl⟩

/-- Counterexample to C2 as stated: the id `7` parses, the Datastore holds no
account 7 (`AccountOne`, `Update` and `Delete` all report an error for it),
yet for a body that does not bind `UpdateAccount` answers 400, not 404, and
never reaches the Datastore. -/
theorem absent_account_notFound_counterexample :
    memEnv.Atoi ((request "7" "" (.error "EOF") (.error "unexpected EOF") none).Param "id")
      = .ok 7 ∧
    (memEnv.AccountOne 7 [⟨1, "Alice"⟩]).1 = .error "account is not found" ∧
    (∀ n : String, (memEnv.Update ⟨7, n⟩ [⟨1, "Alice"⟩]).1 = some "account is not found") ∧
    (memEnv.Delete 7 [⟨1, "Alice"⟩]).1 = some "account is not found" ∧
    ¬ respondsWith (UpdateAccount memEnv
        (request "7" "" (.error "EOF") (.error "unexpected EOF") none)
        (Exchange.fresh [⟨1, "Alice"⟩])) 404 ∧
    (UpdateAccount memEnv (request "7" "" (.error "EOF") (.error "unexpected EOF") none)
        (Exchange.fresh [⟨1, "Alice"⟩])).written
      = [⟨400, Payload.httpError ⟨"unexpected EOF"⟩⟩] ∧
    (UpdateAccount memEnv (request "7" "" (.error "EOF") (.error "unexpected EOF") none)
        (Exchange.fresh [⟨1, "Alice"⟩])).calls = [] := by
  refine ⟨rfl, rfl, fun n => rfl, rfl, by decide, rfl, rfl⟩

/-- C2 (amended): for an id that parses as the integer `aid` and for which
`AccountOne`, `Update` and `Delete` report an error, `ShowAccount` and
`DeleteAccount` answer 404 for every request body, and `UpdateAccount`
answers 404 for every request body that binds. -/
theorem absent_account_notFound {σ : Type} (env : Env σ) (ctx : Context) (db : σ)
    (aid : Int) (e1 e3 : String)
    (hid : env.Atoi (ctx.Param "id") = .ok aid)
    (hone : (env.AccountOne aid db).1 = .error e1)
    (hupd : ∀ n : String, (env.Update ⟨aid, n⟩ db).1 ≠ none)
    (hdel : (env.Delete aid db).1 = some e3) :
    respondsWith (ShowAccount env ctx (Exchange.fresh db)) 404 ∧
    respondsWith (DeleteAccount env ctx (Exchange.fresh db)) 404 ∧
    (∀ u : model.UpdateAccount, ctx.ShouldBindJSONUpdateAccount = .ok u →
      respondsWith (UpdateAccount env ctx (Exchange.fresh db)) 404) := by
  refine ⟨?_, ?_, ?_⟩
  · simp [ShowAccount, callAccountOne, hid, hone, NewError, ctxJSON, respondsWith,
      statuses, Exchange.fresh, StatusNotFound]
  · simp [DeleteAccount, callDelete, hid, hdel, NewError, ctxJSON, respondsWith,
      statuses, Exchange.fresh, StatusNotFound]
  · intro u hu
    have h := hupd u.Name
    cases hr : (env.Update ⟨aid, u.Name⟩ db).1 with
    | none => exact absurd hr h
    | some e =>
      simp [UpdateAccount, callUpdate, hid, hu, hr, NewError, ctxJSON, respondsWith,
        statuses, Exchange.fresh, StatusNotFound]

/-- Witness of C2 (amended): id `7` on a Datastore that holds only account 1,
with a body that binds to the name `Bob`. -/
theorem absent_account_notFound_witness :
    memEnv.Atoi ((request "7" "" (.error "EOF") (.ok ⟨"Bob"⟩) none).Param "id") = .ok 7 ∧
    (request "7" "" (.error "EOF") (.ok ⟨"Bob"⟩) none).ShouldBindJSONUpdateAccount
      = .ok ⟨"Bob"⟩ ∧
    respondsWith (ShowAccount memEnv (request "7" "" (.error "EOF") (.ok ⟨"Bob"⟩) none)
      (Exchange.fresh [⟨1, "Alice"⟩])) 404 ∧
    respondsWith (DeleteAccount memEnv (request "7" "" (.error "EOF") (.ok ⟨"Bob"⟩) none)
      (Exchange.fresh [⟨1, "Alice"⟩])) 404 ∧
    respondsWith (UpdateAccount memEnv (request "7" "" (.error "EOF") (.ok ⟨"Bob"⟩) none)
      (Exchange.fresh [⟨1, "Alice"⟩])) 404 :=
  have h := absent_account_notFound memEnv
    (request "7" "" (.error "EOF") (.ok ⟨"Bob"⟩) none) [⟨1, "Alice"⟩] 7
    "account is not found" "account is not found" rfl rfl
    (fun n => by simp [memEnv, memUpdate]) rfl
  ⟨rfl, rfl, h.1, h.2.1, h.2.2 ⟨"Bob"⟩ rfl⟩

/-- C3: when the body of an add request does not bind, or binds to a value
that `Validation` rejects (as for the empty name), `AddAccount` answers with
status 400, `Insert` is not called and the Datastore state is unchanged. -/
theorem invalid_add_badRequest {σ : Type} (env : Env σ) (ctx : Context) (db : σ)
    (h : (∃ e, ctx.ShouldBindJSONAddAccount = .error e) ∨
      (∃ a e, ctx.ShouldBindJSONAddAccount = .ok a ∧ env.Validation a = some e)) :
    respondsWith (AddAccount env ctx (Exchange.fresh db)) 400 ∧
    (∀ a : model.Account,
      DSCall.Insert a ∉ (AddAccount env ctx (Exchange.fresh db)).calls) ∧
    noDatastoreCall (AddAccount env ctx (Exchange.fresh db)) db := by
  rcases h with ⟨e, he⟩ | ⟨a, e, ha, hv⟩
  · simp [AddAccount, he, NewError, ctxJSON, respondsWith, statuses, noDatastoreCall,
      Exchange.fresh, StatusBadRequest]
  · simp [AddAccount, ha, hv, NewError, ctxJSON, respondsWith, statuses, noDatastoreCall,
      Exchange.fresh, StatusBadRequest]

/-- Witness of C3: a body that binds to the empty name, which `Validation`
rejects. -/
theorem invalid_add_badRequest_witness :
    memEnv.Validation ⟨""⟩ = some "name is empty" ∧
    respondsWith (AddAccount memEnv (request "" "" (.ok ⟨""⟩) (.error "EOF") none)
      (Exchange.fresh [⟨1, "Alice"⟩])) 400 ∧
    (∀ a : model.Account,
      DSCall.Insert a ∉ (AddAccount memEnv (request "" "" (.ok ⟨""⟩) (.error "EOF") none)
        (Exchange.fresh [⟨1, "Alice"⟩])).calls) ∧
    noDatastoreCall (AddAccount memEnv (request "" "" (.ok ⟨""⟩) (.error "EOF") none)
      (Exchange.fresh [⟨1, "Alice"⟩])) [⟨1, "Alice"⟩] :=
  ⟨rfl, invalid_add_badRequest memEnv (request "" "" (.ok ⟨""⟩) (.error "EOF") none)
    [⟨1, "Alice"⟩] (Or.inr ⟨⟨""⟩, "name is empty", rfl, rfl⟩)⟩

/-- C4: `AddAccount` answers 200 exactly when binding, `Validation` and
`Insert` all succeed; the body is then the account with the name of the
request and the identifier `Insert` returned (positive when that identifier
is); in every other case, a failure of `Insert` included, it answers 400. -/
theorem add_ok_iff_all_succeed {σ : Type} (env : Env σ) (ctx : Context) (db : σ) :
    (respondsWith (AddAccount env ctx (Exchange.fresh db)) 200 ↔
      ∃ a lastID, addSucceeds env ctx db a lastID) ∧
    (∀ a lastID, addSucceeds env ctx db a lastID →
      ∃ acc : model.Account,
        (AddAccount env ctx (Exchange.fresh db)).written = [⟨200, Payload.account acc⟩] ∧
        acc.Name = a.Name ∧ acc.ID = lastID ∧ (0 < lastID → 0 < acc.ID)) ∧
    ((¬ ∃ a lastID, addSucceeds env ctx db a lastID) →
      respondsWith (AddAccount env ctx (Exchange.fresh db)) 400) ∧
    (∀ a e, ctx.ShouldBindJSONAddAccount = .ok a → env.Validation a = none →
      (env.Insert ⟨0, a.Name⟩ db).1 = .error e →
      respondsWith (AddAccount env ctx (Exchange.fresh db)) 400) := by
  cases hb : ctx.ShouldBindJSONAddAccount with
  | error e =>
    simp [AddAccount, addSucceeds, hb, NewError, ctxJSON, respondsWith, statuses,
      Exchange.fresh, StatusBadRequest]
  | ok a =>
    cases hv : env.Validation a with
    | some e =>
      simp [AddAccount, addSucceeds, hb, hv, NewError, ctxJSON, respondsWith, statuses,
        Exchange.fresh, StatusBadRequest]
      intro b lastID hab hvb
      subst hab
      simp [hv] at hvb
    | none =>
      cases hi : (env.Insert ⟨0, a.Name⟩ db).1 with
      | error e =>
        simp [AddAccount, addSucceeds, callInsert, hb, hv, hi, NewError, ctxJSON,
          respondsWith, statuses, Exchange.fresh, StatusBadRequest]
        intro b lastID hab _ hib
        subst hab
        simp [hi] at hib
      | ok lastID =>
        simp [AddAccount, addSucceeds, callInsert, hb, hv, hi, ctxJSON,
          respondsWith, statuses, Exchange.fresh, StatusOK]
        refine ⟨?_, ?_⟩
        · intro b l hab _ hib
          subst hab
          rw [hi] at hib
          cases hib
          exact ⟨rfl, rfl, id⟩
        · intro b e hab _ hib
          subst hab
          simp [hi] at hib

/-- Witness of C4: the name `Alice` on an empty Datastore is stored under the
identifier 1. -/
theorem add_ok_iff_all_succeed_witness :
    addSucceeds memEnv (request "" "" (.ok ⟨"Alice"⟩) (.error "EOF") none) [] ⟨"Alice"⟩ 1 ∧
    respondsWith (AddAccount memEnv (request "" "" (.ok ⟨"Alice"⟩) (.error "EOF") none)
      (Exchange.fresh [])) 200 ∧
    ∃ acc : model.Account,
      (AddAccount memEnv (request "" "" (.ok ⟨"Alice"⟩) (.error "EOF") none)
        (Exchange.fresh [])).written = [⟨200, Payload.account acc⟩] ∧
      acc.Name = "Alice" ∧ acc.ID = 1 ∧ ((0 : Int) < 1 → 0 < acc.ID) :=
  have hs : addSucceeds memEnv (request "" "" (.ok ⟨"Alice"⟩) (.error "EOF") none) []
      ⟨"Alice"⟩ 1 := ⟨rfl, rfl, rfl⟩
  have h := add_ok_iff_all_succeed memEnv
    (request "" "" (.ok ⟨"Alice"⟩) (.error "EOF") none) []
  ⟨hs, h.1.mpr ⟨_, _, hs⟩, h.2.1 _ _ hs⟩

/-- C5: when the id parses as `aid`, the body binds to the name `n` and
`Update` succeeds, `UpdateAccount` answers 200 with the account of ID `aid`
and name `n`, and the one Datastore call it makes is `Update` on exactly that
account. -/
theorem update_ok_echoes_account {σ : Type} (env : Env σ) (ctx : Context) (db : σ)
    (aid : Int) (n : String)
    (hid : env.Atoi (ctx.Param "id") = .ok aid)
    (hb : ctx.ShouldBindJSONUpdateAccount = .ok ⟨n⟩)
    (hu : (env.Update ⟨aid, n⟩ db).1 = none) :
    (UpdateAccount env ctx (Exchange.fresh db)).written
      = [⟨200, Payload.account ⟨aid, n⟩⟩] ∧
    (UpdateAccount env ctx (Exchange.fresh db)).calls = [DSCall.Update ⟨aid, n⟩] ∧
    (UpdateAccount env ctx (Exchange.fresh db)).db = (env.Update ⟨aid, n⟩ db).2 := by
  simp [UpdateAccount, callUpdate, hid, hb, hu, ctxJSON, Exchange.fresh, StatusOK]

/-- Witness of C5: id 1, which the Datastore holds, and the name `Bob`. -/
theorem update_ok_echoes_account_witness :
    (UpdateAccount memEnv (request "1" "" (.error "EOF") (.ok ⟨"Bob"⟩) none)
      (Exchange.fresh [⟨1, "Alice"⟩])).written = [⟨200, Payload.account ⟨1, "Bob"⟩⟩] ∧
    (UpdateAccount memEnv (request "1" "" (.error "EOF") (.ok ⟨"Bob"⟩) none)
      (Exchange.fresh [⟨1, "Alice"⟩])).calls = [DSCall.Update ⟨1, "Bob"⟩] ∧
    (UpdateAccount memEnv (request "1" "" (.error "EOF") (.ok ⟨"Bob"⟩) none)
      (Exchange.fresh [⟨1, "Alice"⟩])).db = (memEnv.Update ⟨1, "Bob"⟩ [⟨1, "Alice"⟩]).2 :=
  update_ok_echoes_account memEnv (request "1" "" (.error "EOF") (.ok ⟨"Bob"⟩) none)
    [⟨1, "Alice"⟩] 1 "Bob" rfl rfl rfl

/-- C6: when the id parses as `aid` and `Delete` succeeds, `DeleteAccount`
answers 204 and the object it hands to the response writer is the empty
map. -/
theorem delete_ok_noContent {σ : Type} (env : Env σ) (ctx : Context) (db : σ)
    (aid : Int)
    (hid : env.Atoi (ctx.Param "id") = .ok aid)
    (hd : (env.Delete aid db).1 = none) :
    (DeleteAccount env ctx (Exchange.fresh db)).written = [⟨204, Payload.H []⟩] ∧
    (DeleteAccount env ctx (Exchange.fresh db)).calls = [DSCall.Delete aid] := by
  simp [DeleteAccount, callDelete, hid, hd, ctxJSON, Exchange.fresh, StatusNoContent]

/-- Witness of C6: deleting account 1, which the Datastore holds. -/
theorem delete_ok_noContent_witness :
    (DeleteAccount memEnv (request "1" "" (.error "EOF") (.error "EOF") none)
      (Exchange.fresh [⟨1, "Alice"⟩])).written = [⟨204, Payload.H []⟩] ∧
    (DeleteAccount memEnv (request "1" "" (.error "EOF") (.error "EOF") none)
      (Exchange.fresh [⟨1, "Alice"⟩])).calls = [DSCall.Delete 1] :=
  delete_ok_noContent memEnv (request "1" "" (.error "EOF") (.error "EOF") none)
    [⟨1, "Alice"⟩] 1 rfl rfl

/-- C7: for an id that parses, `UploadAccountImage` answers 400 when
`FormFile` finds no file under `file`, and answers 200 with a message that
contains the file name when one is attached; it makes no Datastore call and
leaves the Datastore as it was. -/
theorem upload_image_stub {σ : Type} (env : Env σ) (ctx : Context) (db : σ) (aid : Int)
    (hid : env.Atoi (ctx.Param "id") = .ok aid) :
    ((∃ e, ctx.FormFile "file" = .error e) →
      respondsWith (UploadAccountImage env ctx (Exchange.fresh db)) 400) ∧
    (∀ file, ctx.FormFile "file" = .ok file →
      ∃ m : Message,
        (UploadAccountImage env ctx (Exchange.fresh db)).written
          = [⟨200, Payload.message m⟩] ∧
        containsText m.Message file.Filename) ∧
    noDatastoreCall (UploadAccountImage env ctx (Exchange.fresh db)) db := by
  refine ⟨?_, ?_, ?_⟩
  · rintro ⟨e, he⟩
    simp [UploadAccountImage, hid, he, NewError, ctxJSON, respondsWith, statuses,
      Exchange.fresh, StatusBadRequest]
  · intro file hf
    refine ⟨⟨"upload compleate finename=" ++ file.Filename⟩, ?_, ?_⟩
    · simp [UploadAccountImage, hid, hf, ctxJSON, Exchange.fresh, StatusOK]
    · exact ⟨"upload compleate finename=", "", by simp⟩
  · cases hf : ctx.FormFile "file" <;>
      simp [UploadAccountImage, hid, hf, NewError, ctxJSON, noDatastoreCall,
        Exchange.fresh]

/-- Witness of C7: the file `photo.png` attached to a request for id 1. -/
theorem upload_image_stub_witness :
    (∃ m : Message,
      (UploadAccountImage memEnv
        (request "1" "" (.error "EOF") (.error "EOF") (some ⟨"photo.png"⟩))
        (Exchange.fresh [⟨1, "Alice"⟩])).written = [⟨200, Payload.message m⟩] ∧
      containsText m.Message "photo.png") ∧
    noDatastoreCall (UploadAccountImage memEnv
        (request "1" "" (.error "EOF") (.error "EOF") (some ⟨"photo.png"⟩))
        (Exchange.fresh [⟨1, "Alice"⟩])) [⟨1, "Alice"⟩] :=
  have h := upload_image_stub memEnv
    (request "1" "" (.error "EOF") (.error "EOF") (some ⟨"photo.png"⟩))
    [⟨1, "Alice"⟩] 1 rfl
  ⟨h.2.1 ⟨"photo.png"⟩ rfl, h.2.2⟩

/-- Counterexample to C8 as stated: for the query `zzz`, which no account
matches, `AccountsAll` returns the empty sequence without error and
`ListAccounts` answers 200 with that empty sequence, not 404. -/
theorem list_empty_notFound_counterexample :
    (memEnv.AccountsAll
      ((request "" "zzz" (.error "EOF") (.error "EOF") none).Query "q")
      [⟨1, "Alice"⟩]).1 = .ok [] ∧
    (ListAccounts memEnv (request "" "zzz" (.error "EOF") (.error "EOF") none)
      (Exchange.fresh [⟨1, "Alice"⟩])).written = [⟨200, Payload.accounts []⟩] ∧
    ¬ respondsWith (ListAccounts memEnv
      (request "" "zzz" (.error "EOF") (.error "EOF") none)
      (Exchange.fresh [⟨1, "Alice"⟩])) 404 := by
  refine ⟨rfl, rfl, by decide⟩

/-- C8 (amended): for every query, `ListAccounts` answers 404 exactly when
`AccountsAll` reports an error; when `AccountsAll` returns a sequence without
error, empty or not, it answers 200 with that sequence as body. -/
theorem list_notFound_iff_error {σ : Type} (env : Env σ) (ctx : Context) (db : σ) :
    (respondsWith (ListAccounts env ctx (Exchange.fresh db)) 404 ↔
      ∃ e, (env.AccountsAll (ctx.Query "q") db).1 = .error e) ∧
    (∀ l, (env.AccountsAll (ctx.Query "q") db).1 = .ok l →
      (ListAccounts env ctx (Exchange.fresh db)).written = [⟨200, Payload.accounts l⟩]) := by
  cases h : (env.AccountsAll (ctx.Query "q") db).1 with
  | error e =>
    simp [ListAccounts, callAccountsAll, h, NewError, ctxJSON, respondsWith, statuses,
      Exchange.fresh, StatusNotFound]
  | ok l =>
    simp [ListAccounts, callAccountsAll, h, ctxJSON, respondsWith, statuses,
      Exchange.fresh, StatusOK]

/-- Witness of C8 (amended): the query `Alice` matches one account and is
answered 200 with it; no error, so no 404. -/
theorem list_notFound_iff_error_witness :
    (ListAccounts memEnv (request "" "Alice" (.error "EOF") (.error "EOF") none)
      (Exchange.fresh [⟨1, "Alice"⟩, ⟨2, "Bob"⟩])).written
      = [⟨200, Payload.accounts [⟨1, "Alice"⟩]⟩] :=
  (list_notFound_iff_error memEnv (request "" "Alice" (.error "EOF") (.error "EOF") none)
    [⟨1, "Alice"⟩, ⟨2, "Bob"⟩]).2 [⟨1, "Alice"⟩] rfl

/-- C9, evaluated where it fails: an update of account 1 whose body binds to
the empty name, a name `Validation` rejects.  `UpdateAccount` calls `Update`
with the empty name, answers 200, and the Datastore then holds the empty
name. -/
theorem update_persists_invalid_name :
    memEnv.Validation ⟨""⟩ = some "name is empty" ∧
    (UpdateAccount memEnv (request "1" "" (.error "EOF") (.ok ⟨""⟩) none)
      (Exchange.fresh [⟨1, "Alice"⟩])).calls = [DSCall.Update ⟨1, ""⟩] ∧
    (UpdateAccount memEnv (request "1" "" (.error "EOF") (.ok ⟨""⟩) none)
      (Exchange.fresh [⟨1, "Alice"⟩])).written = [⟨200, Payload.account ⟨1, ""⟩⟩] ∧
    (UpdateAccount memEnv (request "1" "" (.error "EOF") (.ok ⟨""⟩) none)
      (Exchange.fresh [⟨1, "Alice"⟩])).db = [⟨1, ""⟩] := by
  refine ⟨rfl, rfl, rfl, rfl⟩

/-- C10: for every request and every Datastore behaviour, each of the six
handlers writes exactly one response, with status 200, 204, 400 or 404 and
never 500, and makes at most one Datastore call. -/
theorem handlers_wellAnswered {σ : Type} (env : Env σ) (ctx : Context) (db : σ) :
    wellAnswered (ShowAccount env ctx (Exchange.fresh db)) ∧
    wellAnswered (ListAccounts env ctx (Exchange.fresh db)) ∧
    wellAnswered (AddAccount env ctx (Exchange.fresh db)) ∧
    wellAnswered (UpdateAccount env ctx (Exchange.fresh db)) ∧
    wellAnswered (DeleteAccount env ctx (Exchange.fresh db)) ∧
    wellAnswered (UploadAccountImage env ctx (Exchange.fresh db)) := by
  refine ⟨?_, ?_, ?_, ?_, ?_, ?_⟩
  · cases hid : env.Atoi (ctx.Param "id") with
    | error e =>
      simp [wellAnswered, ShowAccount, hid, NewError, ctxJSON, Exchange.fresh,
        StatusBadRequest, StatusInternalServerError]
    | ok aid =>
      cases h : (env.AccountOne aid db).1 <;>
        simp [wellAnswered, ShowAccount, callAccountOne, hid, h, NewError, ctxJSON,
          Exchange.fresh, StatusNotFound, StatusOK, StatusInternalServerError]
  · cases h : (env.AccountsAll (ctx.Query "q") db).1 <;>
      simp [wellAnswered, ListAccounts, callAccountsAll, h, NewError, ctxJSON,
        Exchange.fresh, StatusNotFound, StatusOK, StatusInternalServerError]
  · cases hb : ctx.ShouldBindJSONAddAccount with
    | error e =>
      simp [wellAnswered, AddAccount, hb, NewError, ctxJSON, Exchange.fresh,
        StatusBadRequest, StatusInternalServerError]
    | ok a =>
      cases hv : env.Validation a with
      | some e =>
        simp [wellAnswered, AddAccount, hb, hv, NewError, ctxJSON, Exchange.fresh,
          StatusBadRequest, StatusInternalServerError]
      | none =>
        cases hi : (env.Insert ⟨0, a.Name⟩ db).1 <;>
          simp [wellAnswered, AddAccount, callInsert, hb, hv, hi, NewError, ctxJSON,
            Exchange.fresh, StatusBadRequest, StatusOK, StatusInternalServerError]
  · cases hid : env.Atoi (ctx.Param "id") with
    | error e =>
      simp [wellAnswered, UpdateAccount, hid, NewError, ctxJSON, Exchange.fresh,
        StatusBadRequest, StatusInternalServerError]
    | ok aid =>
      cases hb : ctx.ShouldBindJSONUpdateAccount with
      | error e =>
        simp [wellAnswered, UpdateAccount, hid, hb, NewError, ctxJSON, Exchange.fresh,
          StatusBadRequest, StatusInternalServerError]
      | ok u =>
        cases hu : (env.Update ⟨aid, u.Name⟩ db).1 <;>
          simp [wellAnswered, UpdateAccount, callUpdate, hid, hb, hu, NewError, ctxJSON,
            Exchange.fresh, StatusNotFound, StatusOK, StatusInternalServerError]
  · cases hid : env.Atoi (ctx.Param "id") with
    | error e =>
      simp [wellAnswered, DeleteAccount, hid, NewError, ctxJSON, Exchange.fresh,
        StatusBadRequest, StatusInternalServerError]
    | ok aid =>
      cases hd : (env.Delete aid db).1 <;>
        simp [wellAnswered, DeleteAccount, callDelete, hid, hd, NewError, ctxJSON,
          Exchange.fresh, StatusNotFound, StatusNoContent, StatusInternalServerError]
  · cases hid : env.Atoi (ctx.Param "id") with
    | error e =>
      simp [wellAnswered, UploadAccountImage, hid, NewError, ctxJSON, Exchange.fresh,
        StatusBadRequest, StatusInternalServerError]
    | ok aid =>
      cases hf : ctx.FormFile "file" <;>
        simp [wellAnswered, UploadAccountImage, hid, hf, NewError, ctxJSON,
          Exchange.fresh, StatusBadRequest, StatusOK, StatusInternalServerError]

end Controller
